import Mathlib

/-!
Shallow embedding of the telegram-sheets bot (`src/main.py`).

The worksheet is modelled as a grid of string-valued cells (`Sheet`); an
empty cell holds `""`.  All row/column coordinates are 1-based, matching
gspread.  `GoogleSheetsManager.get_event_by_date`, `update_event` and
`delete_event` become pure functions on a `Sheet` together with a `fault`
flag standing for "the backing-store operation raised inside the `try`
block" (a faulting call is modelled as failing before performing any
write, which is the granularity the claims need).  The per-call client
construction `GoogleSheetsManager()` performs network calls outside of
every `try` block; its possible failure is a separate `ctorFault` flag in
the handlers, and a constructor failure makes the handler raise
(`HandlerOutcome.raised`), mirroring the uncaught exception.

The conversation engine's handlers become pure functions from
(sheet, session, input text) to (reply, next state, session, sheet), and
`run` reproduces the `ConversationHandler` dispatch table: per-state
`MessageHandler` filters tried in order, then the `/cancel` fallback; an
update matched by no handler leaves state and session untouched and sends
no reply.  Python `None` for a missing `user_data` key is modelled with
`Option`; an f-string renders `none` as `"None"` exactly like Python
(`pyStr`).  `str.strip` removes exactly Python's whitespace set
(`pySpace`).  The `\d` of the date regex is read as the ASCII digits,
whereas Python's str-pattern `\d` (and `int`) also accept other Unicode
decimal digits; the date-validation claims are therefore stated for
ASCII inputs, on which the two classes coincide.  A command message is
one whose text starts with `'/'`.
-/

namespace Bot

/-! ### The worksheet grid -/

/-- A worksheet row: the list of its cell values (`""` = empty cell). -/
abbrev Row := List String

/-- A worksheet: the list of its rows. -/
abbrev Sheet := List Row

/-- Write `v` at 0-based index `i`, padding with empty cells as needed. -/
def setAt0 : List String → Nat → String → List String
  | [], 0, v => [v]
  | _ :: t, 0, v => v :: t
  | [], i+1, v => "" :: setAt0 [] i v
  | h :: t, i+1, v => h :: setAt0 t i v

/-- Write `v` in 1-based column `c` of a row (column 0 is invalid: no-op). -/
def setCol (row : List String) (c : Nat) (v : String) : List String :=
  if c = 0 then row else setAt0 row (c - 1) v

/-- Write into the 0-based row `i`, padding the grid with empty rows. -/
def updRow0 : Sheet → Nat → Nat → String → Sheet
  | [], 0, c, v => [setCol [] c v]
  | row :: t, 0, c, v => setCol row c v :: t
  | [], i+1, c, v => [] :: updRow0 [] i c v
  | row :: t, i+1, c, v => row :: updRow0 t i c v

/-- Model of `sheet.update_cell(r, c, v)` (1-based coordinates). -/
def updateCell (s : Sheet) (r c : Nat) (v : String) : Sheet :=
  if r = 0 then s else updRow0 s (r - 1) c v

/-- Raw value of the cell at 1-based `(r, c)`; `""` outside the grid. -/
def cellStr (s : Sheet) (r c : Nat) : String :=
  if r = 0 ∨ c = 0 then ""
  else ((((s.get? (r - 1)).getD []).get? (c - 1)).getD "")

/-- Model of `sheet.cell(r, c).value`: gspread returns `None` for an
empty cell, modelled as `none`. -/
def cellValue (s : Sheet) (r c : Nat) : Option String :=
  if cellStr s r c = "" then none else some (cellStr s r c)

/-- First 0-based position of `v` in a row, scanning left to right. -/
def firstIdx : List String → String → Option Nat
  | [], _ => none
  | h :: t, v => if h = v then some 0 else (firstIdx t v).map (· + 1)

/-- Model of `sheet.find(v)`: the 1-based (row, column) of the first cell
equal to `v`, scanning rows top to bottom and cells left to right. -/
def findCell : Sheet → String → Option (Nat × Nat)
  | [], _ => none
  | row :: t, v =>
    match firstIdx row v with
    | some j => some (1, j + 1)
    | none => (findCell t v).map (fun p => (p.1 + 1, p.2))

/-- One-based index of the last non-empty entry of a list (0 if none):
the length of the value list gspread's `col_values` returns. -/
def lastNonEmpty : List String → Nat
  | [] => 0
  | h :: t =>
    if lastNonEmpty t = 0 then (if h = "" then 0 else 1)
    else lastNonEmpty t + 1

/-- Model of `len(sheet.col_values(c))`. -/
def colValuesLen (s : Sheet) (c : Nat) : Nat :=
  lastNonEmpty (s.map (fun row => ((row.get? (c - 1)).getD "")))

/-! ### The Event Repository (`GoogleSheetsManager`) -/

/-- The dictionary returned by `get_event_by_date`. -/
structure EventData where
  date : String
  title : Option String
  description : Option String
  exists_ : Bool
deriving Repr, DecidableEq

/-- Model of `GoogleSheetsManager.get_event_by_date`.  `fault = true`
stands for an exception inside the `try` block: the method logs and
returns `None`.  `exists` is Python's `bool(title or description)`. -/
def get_event_by_date (fault : Bool) (s : Sheet) (date : String) : Option EventData :=
  if fault then none
  else
    match findCell s date with
    | some rc =>
      some ⟨date, cellValue s rc.1 2, cellValue s rc.1 3,
            (cellValue s rc.1 2).isSome || (cellValue s rc.1 3).isSome⟩
    | none => some ⟨date, none, none, false⟩

/-- Model of `GoogleSheetsManager.update_event`: reuse the row of the
first cell equal to `date` if any, otherwise append the key one past the
last occupied row of column 1; then write title and description into
columns 2 and 3.  Returns the success flag together with the new sheet. -/
def update_event (fault : Bool) (s : Sheet) (date title description : String) :
    Bool × Sheet :=
  if fault then (false, s)
  else
    match findCell s date with
    | some rc =>
      (true, updateCell (updateCell s rc.1 2 title) rc.1 3 description)
    | none =>
      (true,
        updateCell
          (updateCell (updateCell s (colValuesLen s 1 + 1) 1 date)
            (colValuesLen s 1 + 1) 2 title)
          (colValuesLen s 1 + 1) 3 description)

/-- Model of `GoogleSheetsManager.delete_event`: blank columns 2 and 3 of
the found row and return `True`; return `False` when no cell matches, and
also `False` on an exception — the two failure outcomes share one value. -/
def delete_event (fault : Bool) (s : Sheet) (date : String) : Bool × Sheet :=
  if fault then (false, s)
  else
    match findCell s date with
    | some rc => (true, updateCell (updateCell s rc.1 2 "") rc.1 3 "")
    | none => (false, s)

/-- Repository call with a possibly missing date (`user_data.get` gave
`None`): `sheet.find(None)` raises inside the `try`, so the method
returns `None`. -/
def get_event_opt (fault : Bool) (s : Sheet) (od : Option String) : Option EventData :=
  match od with
  | some d => get_event_by_date fault s d
  | none => none

/-- `update_event` with optional date and title.  A `None` date makes
`find` raise, caught as `False`; a `None` title is written by
`update_cell` as an empty cell. -/
def update_event_opt (fault : Bool) (s : Sheet) (od : Option String)
    (title : Option String) (descr : String) : Bool × Sheet :=
  match od with
  | some d => update_event fault s d (title.getD "") descr
  | none => (false, s)

/-- `delete_event` with an optional date; a `None` date yields `False`. -/
def delete_event_opt (fault : Bool) (s : Sheet) (od : Option String) : Bool × Sheet :=
  match od with
  | some d => delete_event fault s d
  | none => (false, s)

/-! ### Date validation (`is_valid_date`) -/

/-- Model of the regex `^\d{2}\.\d{2}\.\d{4}$` with `\d` read as the
ASCII digits.  Python's str-pattern `\d` (and `int`) also accept other
Unicode decimal digits, so this captures the program's behaviour on
ASCII input; claims built on it are stated for ASCII inputs. -/
def matchesDateRe (t : String) : Bool :=
  match t.data with
  | [a, b, c, d, e, f, g, h, i, j] =>
    a.isDigit && b.isDigit && decide (c = '.') && d.isDigit && e.isDigit &&
    decide (f = '.') && g.isDigit && h.isDigit && i.isDigit && j.isDigit
  | _ => false

/-- Model of Python `str.split('.')` on the character list. -/
def splitDots : List Char → List (List Char)
  | [] => [[]]
  | c :: rest =>
    let r := splitDots rest
    if c = '.' then [] :: r
    else (c :: r.headD []) :: r.tail

/-- Numeric value of a digit character. -/
def digitVal (c : Char) : Nat := c.toNat - 48

/-- Decimal value of a digit string. -/
def digitsVal (l : List Char) : Nat := l.foldl (fun n c => 10 * n + digitVal c) 0

/-- Model of `int(...)` on one split part (only digit strings occur after
the regex has matched). -/
def digitsToNat? (l : List Char) : Option Nat :=
  match l with
  | [] => none
  | _ => if l.all Char.isDigit then some (digitsVal l) else none

/-- Model of `is_valid_date`: regex check, then split on dots, parse the
three parts and check `1 <= month <= 12 and 1 <= day <= 31 and year >= 2024`. -/
def is_valid_date (t : String) : Bool :=
  if matchesDateRe t then
    match (splitDots t.data).map digitsToNat? with
    | [some day, some month, some year] =>
      decide (1 ≤ month) && decide (month ≤ 12) && decide (1 ≤ day) &&
      decide (day ≤ 31) && decide (2024 ≤ year)
    | _ => false
  else false

/-- The spec's date pattern, written from the spec's words: two-digit
day, dot, two-digit month, dot, four-digit year, with day in [1,31],
month in [1,12] and year at least 2024. -/
def specDatePattern (t : String) : Bool :=
  match t.data with
  | [d1, d2, c1, m1, m2, c2, y1, y2, y3, y4] =>
    decide (c1 = '.') && decide (c2 = '.') &&
    d1.isDigit && d2.isDigit && m1.isDigit && m2.isDigit &&
    y1.isDigit && y2.isDigit && y3.isDigit && y4.isDigit &&
    decide (1 ≤ 10 * digitVal d1 + digitVal d2) &&
    decide (10 * digitVal d1 + digitVal d2 ≤ 31) &&
    decide (1 ≤ 10 * digitVal m1 + digitVal m2) &&
    decide (10 * digitVal m1 + digitVal m2 ≤ 12) &&
    decide (2024 ≤ 1000 * digitVal y1 + 100 * digitVal y2 + 10 * digitVal y3 + digitVal y4)
  | _ => false

/-- Python's whitespace predicate (the class `str.strip()` removes):
0x09–0x0D, 0x1C–0x1F, space, NEL (0x85), NBSP (0xA0), Ogham space
(0x1680), 0x2000–0x200A, line/paragraph separator (0x2028/0x2029),
narrow NBSP (0x202F), medium mathematical space (0x205F) and
ideographic space (0x3000). -/
def pySpace (c : Char) : Bool :=
  (decide (9 ≤ c.toNat) && decide (c.toNat ≤ 13)) ||
  (decide (28 ≤ c.toNat) && decide (c.toNat ≤ 32)) ||
  c.toNat == 133 || c.toNat == 160 || c.toNat == 5760 ||
  (decide (8192 ≤ c.toNat) && decide (c.toNat ≤ 8202)) ||
  c.toNat == 8232 || c.toNat == 8233 || c.toNat == 8239 || c.toNat == 8287 ||
  c.toNat == 12288

/-- Model of Python `str.strip()`: drop `pySpace` characters from both
ends. -/
def strip (t : String) : String :=
  ⟨((t.data.dropWhile pySpace).reverse.dropWhile pySpace).reverse⟩

/-! ### The Conversation Engine -/

/-- The conversation states `range(6)` plus `ConversationHandler.END`. -/
inductive ChatState
  | selectingDate
  | selectingAction
  | addingTitle
  | addingDescription
  | confirmOverwrite
  | confirmDelete
  | ended
deriving Repr, DecidableEq

/-- The per-conversation `context.user_data` dictionary. -/
structure Session where
  user_date : Option String
  user_title : Option String
  existing_event : Option EventData
deriving Repr, DecidableEq

/-- What a handler produced: the reply text sent, the returned next
state, and the session and sheet after the call. -/
structure HandlerResult where
  reply : String
  next : ChatState
  sess : Session
  sheet : Sheet
deriving Repr, DecidableEq

/-- A handler either returns normally or lets an exception escape. -/
inductive HandlerOutcome
  | ok (r : HandlerResult)
  | raised
deriving Repr, DecidableEq

/-- The set `MENU_TEXTS` of action/confirmation button labels checked in
`handle_date_input`. -/
def MENU_TEXTS : List String :=
  ["👀 Посмотреть", "✏️ Добавить/Изменить", "🗑️ Удалить",
   "« Назад к дате", "✅ Подтвердить", "❌ Отменить"]

/-- Python `str(x)` for an optional string in an f-string. -/
def pyStr (o : Option String) : String := o.getD "None"

def datePrompt : String :=
  "За какое число вы хотите посмотреть или изменить расписание? Введите дату в формате DD.MM.YYYY:"

def startMsg : String :=
  "Привет! Я бот-ежедневник. За какое число вы хотите посмотреть или изменить расписание? Введите дату в формате DD.MM.YYYY:"

def invalidDateMsg : String :=
  "❌ Неверный формат даты. Пожалуйста, введите дату в формате DD.MM.YYYY:"

def chooseActionMsg (d : String) : String :=
  "📅 Выберите действие для даты " ++ d ++ ":"

def updOkMsg (od : Option String) : String :=
  "✅ Мероприятие на " ++ pyStr od ++ " успешно обновлено!"

def updFailMsg : String := "❌ Произошла ошибка при сохранении."

def delOkMsg (od : Option String) : String :=
  "✅ Мероприятие на " ++ pyStr od ++ " удалено!"

def delFailMsg : String := "❌ Произошла ошибка при удалении."

def viewFoundMsg (od : Option String) (e : EventData) : String :=
  "📅 __" ++ pyStr od ++ "__\n\n-Мероприятие: " ++ e.title.getD "Нет данных" ++
  "\n-Описание: " ++ e.description.getD "Нет данных"

def viewNoneMsg (od : Option String) : String :=
  "📭 На " ++ pyStr od ++ " мероприятий не найдено."

def overwriteAskMsg (od : Option String) (e : EventData) : String :=
  "⚠️ На эту дату уже запланировано мероприятие:\n\n📅 __" ++ pyStr od ++
  "__\n\n-Мероприятие: " ++ pyStr e.title ++ "\n-Описание: " ++ pyStr e.description ++
  "\n\nВы хотите подтвердить изменения или отменить действие?"

def newTitlePrompt : String := "Введите название и ссылку для нового мероприятия:"

def overwriteTitlePrompt : String := "Введите новое название и ссылку для мероприятия:"

def descPrompt : String := "Теперь введите описание мероприятия:"

def delAskMsg (od : Option String) : String :=
  "❓ Вы уверены, что хотите удалить мероприятие за " ++ pyStr od ++ "?"

def noDelMsg (od : Option String) : String :=
  "На " ++ pyStr od ++ " нет мероприятий для удаления."

def actionCancelledMsg : String := "Действие отменено."

def delCancelledMsg : String := "Удаление отменено."

/-- Handler `start`. -/
def start (s : Sheet) (sess : Session) : HandlerResult :=
  ⟨startMsg, .selectingDate, sess, s⟩

/-- Handler `handle_date_input`: menu-label check first, then strip, then
date validation, then store the date and show the action menu. -/
def handle_date_input (s : Sheet) (sess : Session) (text : String) : HandlerResult :=
  if MENU_TEXTS.contains text then ⟨datePrompt, .selectingDate, sess, s⟩
  else
    if is_valid_date (strip text) = false then
      ⟨invalidDateMsg, .selectingDate, sess, s⟩
    else
      ⟨chooseActionMsg (strip text), .selectingAction,
        { sess with user_date := some (strip text) }, s⟩

/-- Handler `view_event`. -/
def view_event (ctorFault opFault : Bool) (s : Sheet) (sess : Session) : HandlerOutcome :=
  if ctorFault then .raised
  else
    match get_event_opt opFault s sess.user_date with
    | some e =>
      if e.exists_ then .ok ⟨viewFoundMsg sess.user_date e, .selectingAction, sess, s⟩
      else .ok ⟨viewNoneMsg sess.user_date, .selectingAction, sess, s⟩
    | none => .ok ⟨viewNoneMsg sess.user_date, .selectingAction, sess, s⟩

/-- Handler `start_add_edit`. -/
def start_add_edit (ctorFault opFault : Bool) (s : Sheet) (sess : Session) : HandlerOutcome :=
  if ctorFault then .raised
  else
    match get_event_opt opFault s sess.user_date with
    | some e =>
      if e.exists_ then
        .ok ⟨overwriteAskMsg sess.user_date e, .confirmOverwrite,
             { sess with existing_event := some e }, s⟩
      else .ok ⟨newTitlePrompt, .addingTitle, sess, s⟩
    | none => .ok ⟨newTitlePrompt, .addingTitle, sess, s⟩

/-- Handler `handle_overwrite_confirm`. -/
def handle_overwrite_confirm (s : Sheet) (sess : Session) (text : String) : HandlerResult :=
  if text = "❌ Отменить" then ⟨actionCancelledMsg, .selectingAction, sess, s⟩
  else ⟨overwriteTitlePrompt, .addingTitle, sess, s⟩

/-- Handler `handle_title_input`. -/
def handle_title_input (s : Sheet) (sess : Session) (text : String) : HandlerResult :=
  ⟨descPrompt, .addingDescription, { sess with user_title := some text }, s⟩

/-- Handler `handle_description_input`: commit the upsert, report success
or failure, pop `user_title`, return to the action menu. -/
def handle_description_input (ctorFault opFault : Bool) (s : Sheet) (sess : Session)
    (text : String) : HandlerOutcome :=
  if ctorFault then .raised
  else
    .ok ⟨if (update_event_opt opFault s sess.user_date sess.user_title text).1 then
           updOkMsg sess.user_date
         else updFailMsg,
         .selectingAction, { sess with user_title := none },
         (update_event_opt opFault s sess.user_date sess.user_title text).2⟩

/-- Handler `start_delete`. -/
def start_delete (ctorFault opFault : Bool) (s : Sheet) (sess : Session) : HandlerOutcome :=
  if ctorFault then .raised
  else
    match get_event_opt opFault s sess.user_date with
    | some e =>
      if e.exists_ then .ok ⟨delAskMsg sess.user_date, .confirmDelete, sess, s⟩
      else .ok ⟨noDelMsg sess.user_date, .selectingAction, sess, s⟩
    | none => .ok ⟨noDelMsg sess.user_date, .selectingAction, sess, s⟩

/-- Handler `handle_delete_confirm`: the cancel label is checked before
the client is constructed; otherwise commit the clear and report. -/
def handle_delete_confirm (ctorFault opFault : Bool) (s : Sheet) (sess : Session)
    (text : String) : HandlerOutcome :=
  if text = "❌ Отменить" then .ok ⟨delCancelledMsg, .selectingAction, sess, s⟩
  else if ctorFault then .raised
  else
    .ok ⟨if (delete_event_opt opFault s sess.user_date).1 then delOkMsg sess.user_date
         else delFailMsg,
         .selectingAction, sess, (delete_event_opt opFault s sess.user_date).2⟩

/-- Handler `back_to_date`: `context.user_data.clear()` then re-prompt. -/
def back_to_date (s : Sheet) (sess : Session) : HandlerResult :=
  ⟨datePrompt, .selectingDate, ⟨none, none, none⟩, s⟩

/-- Handler `cancel`: replies and returns `ConversationHandler.END`; it
does not touch `user_data`. -/
def cancel (s : Sheet) (sess : Session) : HandlerResult :=
  ⟨actionCancelledMsg, .ended, sess, s⟩

/-- Model of `filters.COMMAND`: the message text starts with `'/'`. -/
def isCommand (t : String) : Bool :=
  match t.data with
  | '/' :: _ => true
  | _ => false

/-- The outcome of one dispatched update: optional reply, next state,
session and sheet afterwards.  `reply = none` means no handler consumed
the update (or the handler raised): nothing is sent. -/
structure StepOut where
  reply : Option String
  next : ChatState
  sess : Session
  sheet : Sheet
deriving Repr, DecidableEq

def ofResult (r : HandlerResult) : StepOut := ⟨some r.reply, r.next, r.sess, r.sheet⟩

def ofOutcome (st : ChatState) (sess : Session) (s : Sheet) : HandlerOutcome → StepOut
  | .ok r => ofResult r
  | .raised => ⟨none, st, sess, s⟩

/-- The `ConversationHandler` dispatch table of `main()`: for each state
the registered `MessageHandler` filters in order, then the `/cancel`
fallback; in `ended` (no active conversation) only the `/start` entry
point fires.  A text matched by no filter is not dispatched at all. -/
def run (ctorFault opFault : Bool) (s : Sheet) (st : ChatState) (sess : Session)
    (text : String) : StepOut :=
  match st with
  | .selectingDate =>
    if text = "« Назад" then ofResult (back_to_date s sess)
    else if isCommand text = false then ofResult (handle_date_input s sess text)
    else if text = "/cancel" then ofResult (cancel s sess)
    else ⟨none, .selectingDate, sess, s⟩
  | .selectingAction =>
    if text = "👀 Посмотреть" then
      ofOutcome .selectingAction sess s (view_event ctorFault opFault s sess)
    else if text = "✏️ Добавить/Изменить" then
      ofOutcome .selectingAction sess s (start_add_edit ctorFault opFault s sess)
    else if text = "🗑️ Удалить" then
      ofOutcome .selectingAction sess s (start_delete ctorFault opFault s sess)
    else if text = "« Назад к дате" then ofResult (back_to_date s sess)
    else if text = "/cancel" then ofResult (cancel s sess)
    else ⟨none, .selectingAction, sess, s⟩
  | .addingTitle =>
    if text = "« Назад" then ofResult (back_to_date s sess)
    else if isCommand text = false then ofResult (handle_title_input s sess text)
    else if text = "/cancel" then ofResult (cancel s sess)
    else ⟨none, .addingTitle, sess, s⟩
  | .addingDescription =>
    if text = "« Назад" then ofResult (back_to_date s sess)
    else if isCommand text = false then
      ofOutcome .addingDescription sess s
        (handle_description_input ctorFault opFault s sess text)
    else if text = "/cancel" then ofResult (cancel s sess)
    else ⟨none, .addingDescription, sess, s⟩
  | .confirmOverwrite =>
    if text = "✅ Подтвердить" ∨ text = "❌ Отменить" then
      ofResult (handle_overwrite_confirm s sess text)
    else if text = "« Назад" then ofResult (back_to_date s sess)
    else if text = "/cancel" then ofResult (cancel s sess)
    else ⟨none, .confirmOverwrite, sess, s⟩
  | .confirmDelete =>
    if text = "✅ Подтвердить" ∨ text = "❌ Отменить" then
      ofOutcome .confirmDelete sess s
        (handle_delete_confirm ctorFault opFault s sess text)
    else if text = "« Назад" then ofResult (back_to_date s sess)
    else if text = "/cancel" then ofResult (cancel s sess)
    else ⟨none, .confirmDelete, sess, s⟩
  | .ended =>
    if text = "/start" then ofResult (start s sess)
    else ⟨none, .ended, sess, s⟩

/-- The button labels registered as exact-text `MessageHandler` filters
for a state (excluding the `/cancel` fallback). -/
def stateLabels : ChatState → List String
  | .selectingAction =>
    ["👀 Посмотреть", "✏️ Добавить/Изменить", "🗑️ Удалить", "« Назад к дате"]
  | .confirmOverwrite => ["✅ Подтвердить", "❌ Отменить", "« Назад"]
  | .confirmDelete => ["✅ Подтвердить", "❌ Отменить", "« Назад"]
  | _ => []

/-- Repeated confirmed deletes: `m` calls of `delete_event` for `d`. -/
def clearIter (d : String) : Nat → Sheet → Sheet
  | 0, s => s
  | n+1, s => clearIter d n (delete_event false s d).2

/-- Number of cells in columns 2 and 3 holding `d` (rows of the grid). -/
def rowHits (d : String) (s : Sheet) (i : Nat) : Nat :=
  (if cellStr s (i + 1) 2 = d then 1 else 0) +
  (if cellStr s (i + 1) 3 = d then 1 else 0)

def clearMeasure (d : String) (s : Sheet) : Nat :=
  ((List.range s.length).map (rowHits d s)).sum

/-- After this many confirmed deletes the record for `d` reads as gone. -/
def clearBound (d : String) (s : Sheet) : Nat := clearMeasure d s + 1

/-- Convergence invariant of repeated clears: whenever `find` still
returns a cell for `d`, that row's title and description cells are
already blank, so a lookup reports the record as gone. -/
def clearInv (d : String) (s : Sheet) : Prop :=
  ∀ r c, findCell s d = some (r, c) → cellStr s r 2 = "" ∧ cellStr s r 3 = ""

/-! ### Grid lemmas -/

lemma setAt0_getD (i : Nat) (l : List String) (v : String) (j : Nat) :
    (((setAt0 l i v).get? j).getD "") = if j = i then v else ((l.get? j).getD "") := by
  induction i generalizing l j with
  | zero =>
    cases l <;> cases j <;> simp [setAt0]
  | succ i ih =>
    cases l with
    | nil =>
      cases j with
      | zero => simp [setAt0]
      | succ j =>
        simp only [setAt0, List.get?_cons_succ, List.get?_nil]
        rw [ih]
        by_cases hj : j = i <;> simp [hj]
    | cons h t =>
      cases j with
      | zero => simp [setAt0]
      | succ j =>
        simp only [setAt0, List.get?_cons_succ]
        rw [ih]
        by_cases hj : j = i <;> simp [hj]

lemma updRow0_getD (i : Nat) (s : Sheet) (c : Nat) (v : String) (j : Nat) :
    (((updRow0 s i c v).get? j).getD []) =
      if j = i then setCol ((s.get? j).getD []) c v else ((s.get? j).getD []) := by
  induction i generalizing s j with
  | zero =>
    cases s <;> cases j <;> simp [updRow0]
  | succ i ih =>
    cases s with
    | nil =>
      cases j with
      | zero => simp [updRow0]
      | succ j =>
        simp only [updRow0, List.get?_cons_succ, List.get?_nil]
        rw [ih]
        by_cases hj : j = i <;> simp [hj]
    | cons row t =>
      cases j with
      | zero => simp [updRow0]
      | succ j =>
        simp only [updRow0, List.get?_cons_succ]
        rw [ih]
        by_cases hj : j = i <;> simp [hj]

lemma cellStr_eq (s : Sheet) (r c : Nat) (hr : r ≠ 0) (hc : c ≠ 0) :
    cellStr s r c = ((((s.get? (r - 1)).getD []).get? (c - 1)).getD "") := by
  simp [cellStr, hr, hc]

lemma cellStr_row_zero (s : Sheet) (c : Nat) : cellStr s 0 c = "" := by
  simp [cellStr]

lemma cellStr_col_zero (s : Sheet) (r : Nat) : cellStr s r 0 = "" := by
  simp [cellStr]

lemma cellStr_nil (r c : Nat) : cellStr [] r c = "" := by
  by_cases hr : r = 0
  · simp [hr, cellStr_row_zero]
  · by_cases hc : c = 0
    · simp [hc, cellStr_col_zero]
    · rw [cellStr_eq [] r c hr hc]; simp

/-- The frame property of `update_cell`: the written cell holds `v` and
every other cell keeps its value. -/
lemma cellStr_updateCell (s : Sheet) (r c : Nat) (v : String)
    (hr : 1 ≤ r) (hc : 1 ≤ c) (x y : Nat) :
    cellStr (updateCell s r c v) x y = if x = r ∧ y = c then v else cellStr s x y := by
  have hr0 : r ≠ 0 := by omega
  have hc0 : c ≠ 0 := by omega
  by_cases hx : x = 0
  · subst hx
    rw [if_neg (by omega : ¬((0 : Nat) = r ∧ y = c))]
    rw [cellStr_row_zero, cellStr_row_zero]
  by_cases hy : y = 0
  · subst hy
    rw [if_neg (by omega : ¬(x = r ∧ (0 : Nat) = c))]
    rw [cellStr_col_zero, cellStr_col_zero]
  rw [cellStr_eq _ x y hx hy, cellStr_eq s x y hx hy]
  unfold updateCell
  rw [if_neg hr0, updRow0_getD]
  by_cases hxr : x - 1 = r - 1
  · have hxr' : x = r := by omega
    rw [if_pos hxr]
    unfold setCol
    rw [if_neg hc0, setAt0_getD]
    by_cases hyc : y - 1 = c - 1
    · have hyc' : y = c := by omega
      rw [if_pos hyc, if_pos ⟨hxr', hyc'⟩]
    · have hyc' : y ≠ c := by omega
      rw [if_neg hyc, if_neg (fun h => hyc' h.2), hxr]
  · have hxr' : x ≠ r := by omega
    rw [if_neg hxr, if_neg (fun h => hxr' h.1)]

lemma updRow0_length (i : Nat) (s : Sheet) (c : Nat) (v : String) (h : i < s.length) :
    (updRow0 s i c v).length = s.length := by
  induction i generalizing s with
  | zero =>
    cases s with
    | nil => simp at h
    | cons row t => simp [updRow0]
  | succ i ih =>
    cases s with
    | nil => simp at h
    | cons row t =>
      simp only [updRow0, List.length_cons]
      rw [ih t (by simpa using h)]

lemma updateCell_length (s : Sheet) (r c : Nat) (v : String)
    (hr : 1 ≤ r) (hle : r ≤ s.length) : (updateCell s r c v).length = s.length := by
  unfold updateCell
  rw [if_neg (by omega : ¬ r = 0)]
  exact updRow0_length (r - 1) s c v (by omega)

lemma cellStr_bounds (s : Sheet) (r c : Nat) (h : cellStr s r c ≠ "") :
    1 ≤ r ∧ r ≤ s.length ∧ 1 ≤ c := by
  by_cases hr : r = 0
  · exact absurd (hr ▸ cellStr_row_zero s c) h
  by_cases hc : c = 0
  · exact absurd (hc ▸ cellStr_col_zero s r) h
  refine ⟨by omega, ?_, by omega⟩
  by_contra hlen
  rw [cellStr_eq s r c hr hc] at h
  rw [show s.get? (r - 1) = none from List.get?_eq_none.mpr (by omega)] at h
  simp at h

/-! ### Characterizing `findCell` through `cellStr` -/

lemma getD_eq_some (o : Option String) (v : String) (hv : v ≠ "") (h : o.getD "" = v) :
    o = some v := by
  cases o with
  | none => exact absurd h.symm hv
  | some w => simpa using h

lemma firstIdx_some (l : List String) (v : String) (j : Nat)
    (h : firstIdx l v = some j) :
    l.get? j = some v ∧ ∀ i, i < j → l.get? i ≠ some v := by
  induction l generalizing j with
  | nil => simp [firstIdx] at h
  | cons a t ih =>
    simp only [firstIdx] at h
    by_cases hav : a = v
    · rw [if_pos hav] at h
      have hj : j = 0 := by simpa using h.symm
      subst hj
      exact ⟨by simp [hav], fun i hi => by omega⟩
    · rw [if_neg hav] at h
      cases hf : firstIdx t v with
      | none => rw [hf] at h; simp at h
      | some j' =>
        rw [hf] at h
        have hj : j = j' + 1 := by simpa using h.symm
        subst hj
        obtain ⟨h1, h2⟩ := ih j' hf
        refine ⟨by simpa using h1, ?_⟩
        intro i hi
        cases i with
        | zero => simpa using fun he => hav he
        | succ i => simpa using h2 i (by omega)

lemma firstIdx_none (l : List String) (v : String) (h : firstIdx l v = none) :
    ∀ i, l.get? i ≠ some v := by
  induction l with
  | nil => intro i; simp
  | cons a t ih =>
    simp only [firstIdx] at h
    by_cases hav : a = v
    · rw [if_pos hav] at h; simp at h
    · rw [if_neg hav] at h
      cases hf : firstIdx t v with
      | some j' => rw [hf] at h; simp at h
      | none =>
        intro i
        cases i with
        | zero => simpa using fun he => hav he
        | succ i => simpa using ih hf i

lemma cellStr_cons_one (row : Row) (t : Sheet) (c : Nat) (hc : 1 ≤ c) :
    cellStr (row :: t) 1 c = ((row.get? (c - 1)).getD "") := by
  rw [cellStr_eq _ 1 c (by omega) (by omega)]
  simp

lemma cellStr_cons_succ (row : Row) (t : Sheet) (r c : Nat) (hr : 1 ≤ r) :
    cellStr (row :: t) (r + 1) c = cellStr t r c := by
  by_cases hc : c = 0
  · subst hc; rw [cellStr_col_zero, cellStr_col_zero]
  rw [cellStr_eq _ (r + 1) c (by omega) hc, cellStr_eq t r c (by omega) hc]
  obtain ⟨r', rfl⟩ : ∃ r', r = r' + 1 := ⟨r - 1, by omega⟩
  simp

/-- Soundness of `findCell`, for a non-empty query: the found cell holds
`v` and every row-major-earlier cell does not. -/
lemma findCell_some (s : Sheet) (v : String) (r c : Nat) (hv : v ≠ "")
    (h : findCell s v = some (r, c)) :
    1 ≤ r ∧ 1 ≤ c ∧ cellStr s r c = v ∧
      ∀ r' c', (r' < r ∨ (r' = r ∧ c' < c)) → cellStr s r' c' ≠ v := by
  induction s generalizing r c with
  | nil => simp [findCell] at h
  | cons row t ih =>
    simp only [findCell] at h
    cases hf : firstIdx row v with
    | some j =>
      rw [hf] at h
      simp only [Option.some.injEq, Prod.mk.injEq] at h
      obtain ⟨hr, hc⟩ := h
      subst hr; subst hc
      obtain ⟨h1, h2⟩ := firstIdx_some row v j hf
      refine ⟨by omega, by omega, ?_, ?_⟩
      · rw [cellStr_cons_one row t (j + 1) (by omega)]
        rw [show j + 1 - 1 = j from by omega, h1]
        rfl
      · intro r' c' hlt
        rcases hlt with hlt | ⟨hr', hc'⟩
        · have : r' = 0 := by omega
          subst this
          rw [cellStr_row_zero]; exact fun he => hv he.symm
        · subst hr'
          by_cases hc0 : c' = 0
          · subst hc0; rw [cellStr_col_zero]; exact fun he => hv he.symm
          · rw [cellStr_cons_one row t c' (by omega)]
            intro he
            exact h2 (c' - 1) (by omega) (getD_eq_some _ _ hv he)
    | none =>
      rw [hf] at h
      cases hft : findCell t v with
      | none => rw [hft] at h; simp at h
      | some p =>
        rw [hft] at h
        obtain ⟨r₀, c₀⟩ := p
        simp only [Option.map_some', Option.some.injEq, Prod.mk.injEq] at h
        obtain ⟨hr, hc⟩ := h
        obtain ⟨h1, h2, h3, h4⟩ := ih r₀ c₀ hft
        subst hr; subst hc
        refine ⟨by omega, h2, ?_, ?_⟩
        · rw [cellStr_cons_succ row t r₀ c₀ h1]; exact h3
        · intro r' c' hlt
          cases r' with
          | zero => rw [cellStr_row_zero]; exact fun he => hv he.symm
          | succ r'' =>
            cases r'' with
            | zero =>
              by_cases hc0 : c' = 0
              · subst hc0; rw [cellStr_col_zero]; exact fun he => hv he.symm
              · rw [cellStr_cons_one row t c' (by omega)]
                intro he
                exact firstIdx_none row v hf (c' - 1) (getD_eq_some _ _ hv he)
            | succ k =>
              rw [cellStr_cons_succ row t (k + 1) c' (by omega)]
              refine h4 (k + 1) c' ?_
              rcases hlt with hlt | ⟨hr', hc'⟩
              · exact Or.inl (by omega)
              · exact Or.inr ⟨by omega, hc'⟩

/-- Completeness of a failed `findCell`: no cell holds `v`. -/
lemma findCell_none (s : Sheet) (v : String) (hv : v ≠ "")
    (h : findCell s v = none) : ∀ r c, cellStr s r c ≠ v := by
  induction s with
  | nil => intro r c; rw [cellStr_nil]; exact fun he => hv he.symm
  | cons row t ih =>
    simp only [findCell] at h
    cases hf : firstIdx row v with
    | some j => rw [hf] at h; simp at h
    | none =>
      rw [hf] at h
      cases hft : findCell t v with
      | some p => rw [hft] at h; simp at h
      | none =>
        intro r c
        cases r with
        | zero => rw [cellStr_row_zero]; exact fun he => hv he.symm
        | succ r' =>
          cases r' with
          | zero =>
            by_cases hc0 : c = 0
            · subst hc0; rw [cellStr_col_zero]; exact fun he => hv he.symm
            · rw [cellStr_cons_one row t c (by omega)]
              intro he
              exact firstIdx_none row v hf (c - 1) (getD_eq_some _ _ hv he)
          | succ k =>
            rw [cellStr_cons_succ row t (k + 1) c (by omega)]
            exact ih hft (k + 1) c

/-- Uniqueness: a cell holding `v` with no row-major-earlier occurrence
is exactly the cell `findCell` returns. -/
lemma findCell_of_cell (s : Sheet) (v : String) (r c : Nat) (hv : v ≠ "")
    (hcell : cellStr s r c = v)
    (hmin : ∀ r' c', (r' < r ∨ (r' = r ∧ c' < c)) → cellStr s r' c' ≠ v) :
    findCell s v = some (r, c) := by
  cases hf : findCell s v with
  | none => exact absurd hcell (findCell_none s v hv hf r c)
  | some p =>
    obtain ⟨r₀, c₀⟩ := p
    obtain ⟨h1, h2, h3, h4⟩ := findCell_some s v r₀ c₀ hv hf
    rcases Nat.lt_trichotomy r₀ r with hlt | heq | hgt
    · exact absurd h3 (hmin r₀ c₀ (Or.inl hlt))
    · subst heq
      rcases Nat.lt_trichotomy c₀ c with hlt | heq | hgt
      · exact absurd h3 (hmin r₀ c₀ (Or.inr ⟨rfl, hlt⟩))
      · subst heq; rfl
      · exact absurd hcell (h4 r₀ c (Or.inr ⟨rfl, hgt⟩))
    · exact absurd hcell (h4 r c (Or.inl hgt))

/-- For a non-empty query, `findCell` only depends on the cell values. -/
lemma findCell_ext (s₁ s₂ : Sheet) (v : String) (hv : v ≠ "")
    (h : ∀ r c, cellStr s₁ r c = cellStr s₂ r c) :
    findCell s₁ v = findCell s₂ v := by
  cases hf : findCell s₂ v with
  | some p =>
    obtain ⟨r, c⟩ := p
    obtain ⟨h1, h2, h3, h4⟩ := findCell_some s₂ v r c hv hf
    exact findCell_of_cell s₁ v r c hv (by rw [h]; exact h3)
      (fun r' c' hlt => by rw [h]; exact h4 r' c' hlt)
  | none =>
    cases hf1 : findCell s₁ v with
    | none => rfl
    | some p =>
      obtain ⟨r, c⟩ := p
      obtain ⟨_, _, h3, _⟩ := findCell_some s₁ v r c hv hf1
      exact absurd (by rw [← h]; exact h3) (findCell_none s₂ v hv hf r c)

/-! ### `col_values` length lemmas -/

lemma lastNonEmpty_spec (l : List String) :
    ∀ j, lastNonEmpty l ≤ j → ((l.get? j).getD "") = "" := by
  induction l with
  | nil => intro j _; simp
  | cons h t ih =>
    intro j hj
    simp only [lastNonEmpty] at hj
    by_cases hn : lastNonEmpty t = 0
    · rw [if_pos hn] at hj
      by_cases hh : h = ""
      · cases j with
        | zero => simpa using hh
        | succ j => simpa using ih j (by omega)
      · rw [if_neg hh] at hj
        cases j with
        | zero => omega
        | succ j => simpa using ih j (by omega)
    · rw [if_neg hn] at hj
      cases j with
      | zero => omega
      | succ j => simpa using ih j (by omega)

lemma lastNonEmpty_last (l : List String) (h : lastNonEmpty l ≠ 0) :
    ((l.get? (lastNonEmpty l - 1)).getD "") ≠ "" := by
  induction l with
  | nil => simp [lastNonEmpty] at h
  | cons a t ih =>
    simp only [lastNonEmpty] at h ⊢
    by_cases hn : lastNonEmpty t = 0
    · rw [if_pos hn] at h ⊢
      by_cases ha : a = ""
      · rw [if_pos ha] at h; omega
      · rw [if_neg ha]; simpa using ha
    · rw [if_neg hn] at h ⊢
      have ht := ih hn
      obtain ⟨k, hk⟩ : ∃ k, lastNonEmpty t = k + 1 := ⟨lastNonEmpty t - 1, by omega⟩
      rw [hk] at ht ⊢
      simpa using ht

lemma cellStr_as_col (s : Sheet) (r c : Nat) (hr : 1 ≤ r) (hc : 1 ≤ c) :
    cellStr s r c =
      (((s.map (fun row => ((row.get? (c - 1)).getD ""))).get? (r - 1)).getD "") := by
  rw [cellStr_eq s r c (by omega) (by omega), List.get?_map]
  cases s.get? (r - 1) <;> simp

/-- Rows strictly past `colValuesLen s c` are empty in column `c`. -/
lemma colValuesLen_spec (s : Sheet) (c : Nat) (hc : 1 ≤ c) :
    ∀ r, colValuesLen s c < r → cellStr s r c = "" := by
  intro r hr
  have hr1 : 1 ≤ r := by omega
  rw [cellStr_as_col s r c hr1 hc]
  exact lastNonEmpty_spec _ (r - 1) (by unfold colValuesLen at hr; omega)

/-- When nonzero, `colValuesLen s c` is an occupied row of column `c`. -/
lemma colValuesLen_last (s : Sheet) (c : Nat) (hc : 1 ≤ c)
    (h : colValuesLen s c ≠ 0) : cellStr s (colValuesLen s c) c ≠ "" := by
  rw [cellStr_as_col s (colValuesLen s c) c (by omega) hc]
  exact lastNonEmpty_last _ h

/-! ### Convergence of repeated clears -/

lemma delete_of_none (s : Sheet) (d : String) (hf : findCell s d = none) :
    delete_event false s d = (false, s) := by
  simp [delete_event, hf]

lemma delete_of_some (s : Sheet) (d : String) (r c : Nat)
    (hf : findCell s d = some (r, c)) :
    delete_event false s d = (true, updateCell (updateCell s r 2 "") r 3 "") := by
  simp [delete_event, hf]

/-- Cellwise effect of a successful clear: columns 2 and 3 of the found
row become blank, every other cell is untouched. -/
lemma clear_cellStr (s : Sheet) (d : String) (r c : Nat) (hd : d ≠ "")
    (hf : findCell s d = some (r, c)) (x y : Nat) :
    cellStr (delete_event false s d).2 x y =
      if x = r ∧ (y = 2 ∨ y = 3) then "" else cellStr s x y := by
  obtain ⟨hr1, _, _, _⟩ := findCell_some s d r c hd hf
  rw [delete_of_some s d r c hf]
  rw [cellStr_updateCell _ r 3 "" hr1 (by omega) x y]
  rw [cellStr_updateCell s r 2 "" hr1 (by omega) x y]
  split_ifs <;> first | rfl | tauto

lemma clearInv_lookup (d : String) (s : Sheet) (hd : d ≠ "") (h : clearInv d s) :
    get_event_by_date false s d = some ⟨d, none, none, false⟩ := by
  cases hf : findCell s d with
  | none => simp [get_event_by_date, hf]
  | some rc =>
    obtain ⟨r, c⟩ := rc
    obtain ⟨h2, h3⟩ := h r c hf
    simp [get_event_by_date, hf, cellValue, h2, h3]

lemma clearInv_preserved (d : String) (s : Sheet) (hd : d ≠ "") (h : clearInv d s) :
    clearInv d (delete_event false s d).2 := by
  cases hf : findCell s d with
  | none => rw [delete_of_none s d hf]; exact h
  | some rc =>
    obtain ⟨r, c⟩ := rc
    obtain ⟨hb2, hb3⟩ := h r c hf
    have hcs : ∀ x y, cellStr (delete_event false s d).2 x y = cellStr s x y := by
      intro x y
      rw [clear_cellStr s d r c hd hf x y]
      split_ifs with hxy
      · obtain ⟨rfl, hy⟩ := hxy
        rcases hy with rfl | rfl
        · exact hb2.symm
        · exact hb3.symm
      · rfl
    have hfind : findCell (delete_event false s d).2 d = findCell s d :=
      findCell_ext _ _ d hd hcs
    intro r' c' hf'
    rw [hfind, hf] at hf'
    obtain ⟨hr', _⟩ : r = r' ∧ c = c' := by simpa using hf'
    subst hr'
    rw [hcs, hcs]
    exact ⟨hb2, hb3⟩

lemma clearInv_iter (d : String) (hd : d ≠ "") :
    ∀ m s, clearInv d s → clearInv d (clearIter d m s) := by
  intro m
  induction m with
  | zero => intro s h; simpa [clearIter] using h
  | succ n ih =>
    intro s h
    rw [show clearIter d (n + 1) s = clearIter d n (delete_event false s d).2 from rfl]
    exact ih _ (clearInv_preserved d s hd h)

lemma map_sum_le (l : List Nat) (f g : Nat → Nat) (h : ∀ i ∈ l, f i ≤ g i) :
    (l.map f).sum ≤ (l.map g).sum := by
  induction l with
  | nil => simp
  | cons a t ih =>
    simp only [List.map_cons, List.sum_cons]
    exact Nat.add_le_add (h a (by simp)) (ih (fun i hi => h i (by simp [hi])))

lemma map_sum_lt (l : List Nat) (f g : Nat → Nat) (h : ∀ i ∈ l, f i ≤ g i)
    (j : Nat) (hj : j ∈ l) (hlt : f j < g j) :
    (l.map f).sum < (l.map g).sum := by
  induction l with
  | nil => simp at hj
  | cons a t ih =>
    simp only [List.map_cons, List.sum_cons]
    rcases List.mem_cons.mp hj with rfl | hjt
    · exact add_lt_add_of_lt_of_le hlt (map_sum_le t f g (fun i hi => h i (by simp [hi])))
    · exact add_lt_add_of_le_of_lt (h a (by simp)) (ih (fun i hi => h i (by simp [hi])) hjt)

/-- One successful clear either establishes the invariant or removes at
least one occurrence of `d` from columns 2–3. -/
lemma clear_progress (d : String) (s : Sheet) (r c : Nat) (hd : d ≠ "")
    (hf : findCell s d = some (r, c)) :
    clearInv d (delete_event false s d).2 ∨
      clearMeasure d (delete_event false s d).2 < clearMeasure d s := by
  obtain ⟨hr1, hc1, hcell, hmin⟩ := findCell_some s d r c hd hf
  by_cases hB : cellStr s r 2 = d ∨ cellStr s r 3 = d
  · right
    have hbounds := cellStr_bounds s r c (by rw [hcell]; exact hd)
    have hrL : r ≤ s.length := hbounds.2.1
    have hlen1 : (updateCell s r 2 "").length = s.length :=
      updateCell_length s r 2 "" hr1 hrL
    have hlen : (delete_event false s d).2.length = s.length := by
      rw [delete_of_some s d r c hf]
      rw [updateCell_length _ r 3 "" hr1 (by omega), hlen1]
    unfold clearMeasure
    rw [hlen]
    apply map_sum_lt (List.range s.length) _ _ ?_ (r - 1) ?_ ?_
    · intro i _
      unfold rowHits
      by_cases hir : i + 1 = r
      · have e2 : cellStr (delete_event false s d).2 (i + 1) 2 = "" := by
          rw [clear_cellStr s d r c hd hf, if_pos ⟨hir, Or.inl rfl⟩]
        have e3 : cellStr (delete_event false s d).2 (i + 1) 3 = "" := by
          rw [clear_cellStr s d r c hd hf, if_pos ⟨hir, Or.inr rfl⟩]
        rw [e2, e3, if_neg (show ¬("" = d) from fun he => hd he.symm)]
        exact Nat.zero_le _
      · have e2 : cellStr (delete_event false s d).2 (i + 1) 2 = cellStr s (i + 1) 2 := by
          rw [clear_cellStr s d r c hd hf, if_neg (fun hx => hir hx.1)]
        have e3 : cellStr (delete_event false s d).2 (i + 1) 3 = cellStr s (i + 1) 3 := by
          rw [clear_cellStr s d r c hd hf, if_neg (fun hx => hir hx.1)]
        rw [e2, e3]
    · exact List.mem_range.mpr (by omega)
    · unfold rowHits
      rw [show r - 1 + 1 = r from by omega]
      have e2 : cellStr (delete_event false s d).2 r 2 = "" := by
        rw [clear_cellStr s d r c hd hf, if_pos ⟨rfl, Or.inl rfl⟩]
      have e3 : cellStr (delete_event false s d).2 r 3 = "" := by
        rw [clear_cellStr s d r c hd hf, if_pos ⟨rfl, Or.inr rfl⟩]
      rw [e2, e3, if_neg (show ¬("" = d) from fun he => hd he.symm)]
      rcases hB with hB | hB
      · rw [if_pos hB]; omega
      · rw [if_pos hB]; omega
  · left
    push_neg at hB
    obtain ⟨hB2, hB3⟩ := hB
    have hcne : ¬(c = 2 ∨ c = 3) := by
      rintro (rfl | rfl)
      · exact hB2 hcell
      · exact hB3 hcell
    have hfind' : findCell (delete_event false s d).2 d = some (r, c) := by
      apply findCell_of_cell _ d r c hd
      · rw [clear_cellStr s d r c hd hf r c, if_neg (fun hx => hcne hx.2)]
        exact hcell
      · intro r' c' hlt
        rw [clear_cellStr s d r c hd hf r' c']
        split_ifs with hxy
        · exact fun he => hd he.symm
        · exact hmin r' c' hlt
    intro r' c' hf'
    rw [hfind'] at hf'
    obtain ⟨hr', _⟩ : r = r' ∧ c = c' := by simpa using hf'
    subst hr'
    constructor
    · rw [clear_cellStr s d r c hd hf, if_pos ⟨rfl, Or.inl rfl⟩]
    · rw [clear_cellStr s d r c hd hf, if_pos ⟨rfl, Or.inr rfl⟩]

/-- Main convergence argument, by induction on the measure bound. -/
lemma clear_conv (d : String) (hd : d ≠ "") :
    ∀ k s, clearMeasure d s ≤ k → ∀ m, k + 1 ≤ m →
      get_event_by_date false (clearIter d m s) d = some ⟨d, none, none, false⟩ := by
  intro k
  induction k with
  | zero =>
    intro s hM m hm
    by_cases hInv : clearInv d s
    · exact clearInv_lookup d _ hd (clearInv_iter d hd m s hInv)
    · cases hf : findCell s d with
      | none => exact absurd (fun r c hrc => absurd (hf ▸ hrc) (by simp)) hInv
      | some rc =>
        obtain ⟨r, c⟩ := rc
        rcases clear_progress d s r c hd hf with hI | hM'
        · obtain ⟨m', rfl⟩ : ∃ m', m = m' + 1 := ⟨m - 1, by omega⟩
          rw [show clearIter d (m' + 1) s = clearIter d m' (delete_event false s d).2 from rfl]
          exact clearInv_lookup d _ hd (clearInv_iter d hd m' _ hI)
        · omega
  | succ k ih =>
    intro s hM m hm
    by_cases hInv : clearInv d s
    · exact clearInv_lookup d _ hd (clearInv_iter d hd m s hInv)
    · cases hf : findCell s d with
      | none => exact absurd (fun r c hrc => absurd (hf ▸ hrc) (by simp)) hInv
      | some rc =>
        obtain ⟨r, c⟩ := rc
        rcases clear_progress d s r c hd hf with hI | hM'
        · obtain ⟨m', rfl⟩ : ∃ m', m = m' + 1 := ⟨m - 1, by omega⟩
          rw [show clearIter d (m' + 1) s = clearIter d m' (delete_event false s d).2 from rfl]
          exact clearInv_lookup d _ hd (clearInv_iter d hd m' _ hI)
        · obtain ⟨m', rfl⟩ : ∃ m', m = m' + 1 := ⟨m - 1, by omega⟩
          rw [show clearIter d (m' + 1) s = clearIter d m' (delete_event false s d).2 from rfl]
          exact ih _ (by omega) m' (by omega)

/-! ### Date-validation lemmas -/

lemma isDigit_ne_dot (c : Char) (h : c.isDigit = true) : ¬(c = '.') := by
  intro hc
  rw [hc] at h
  exact absurd h (by decide)

lemma matchesDateRe_shape (t : String) (h : matchesDateRe t = true) :
    ∃ a b m1 m2 y1 y2 y3 y4,
      t.data = [a, b, '.', m1, m2, '.', y1, y2, y3, y4] ∧
      a.isDigit = true ∧ b.isDigit = true ∧ m1.isDigit = true ∧ m2.isDigit = true ∧
      y1.isDigit = true ∧ y2.isDigit = true ∧ y3.isDigit = true ∧ y4.isDigit = true := by
  unfold matchesDateRe at h
  rcases ht : t.data with _ |
    ⟨a, _ | ⟨b, _ | ⟨p, _ | ⟨m1, _ | ⟨m2, _ | ⟨q, _ |
      ⟨y1, _ | ⟨y2, _ | ⟨y3, _ | ⟨y4, _ | ⟨z, rest⟩⟩⟩⟩⟩⟩⟩⟩⟩⟩⟩ <;>
    rw [ht] at h <;> simp at h
  obtain ⟨⟨⟨⟨⟨⟨⟨⟨⟨ha, hb⟩, hp⟩, hm1⟩, hm2⟩, hq⟩, hy1⟩, hy2⟩, hy3⟩, hy4⟩ := h
  exact ⟨a, b, m1, m2, y1, y2, y3, y4, by rw [hp, hq], ha, hb, hm1, hm2, hy1, hy2, hy3, hy4⟩

lemma splitDots_shape (a b m1 m2 y1 y2 y3 y4 : Char)
    (ha : ¬(a = '.')) (hb : ¬(b = '.')) (hm1 : ¬(m1 = '.')) (hm2 : ¬(m2 = '.'))
    (hy1 : ¬(y1 = '.')) (hy2 : ¬(y2 = '.')) (hy3 : ¬(y3 = '.')) (hy4 : ¬(y4 = '.')) :
    splitDots [a, b, '.', m1, m2, '.', y1, y2, y3, y4] =
      [[a, b], [m1, m2], [y1, y2, y3, y4]] := by
  simp [splitDots, ha, hb, hm1, hm2, hy1, hy2, hy3, hy4]

lemma digitsToNat_two (a b : Char) (ha : a.isDigit = true) (hb : b.isDigit = true) :
    digitsToNat? [a, b] = some (10 * digitVal a + digitVal b) := by
  simp [digitsToNat?, ha, hb, digitsVal]

lemma digitsToNat_four (y1 y2 y3 y4 : Char) (h1 : y1.isDigit = true)
    (h2 : y2.isDigit = true) (h3 : y3.isDigit = true) (h4 : y4.isDigit = true) :
    digitsToNat? [y1, y2, y3, y4] =
      some (1000 * digitVal y1 + 100 * digitVal y2 + 10 * digitVal y3 + digitVal y4) := by
  simp [digitsToNat?, h1, h2, h3, h4, digitsVal]
  ring

/-- Every string accepted by `is_valid_date` matches the spec's
`DD.MM.YYYY` pattern with its day/month/year ranges. -/
lemma valid_imp_spec (t : String) (h : is_valid_date t = true) :
    specDatePattern t = true := by
  unfold is_valid_date at h
  by_cases hre : matchesDateRe t = true
  · obtain ⟨a, b, m1, m2, y1, y2, y3, y4, ht, ha, hb, hm1, hm2, hy1, hy2, hy3, hy4⟩ :=
      matchesDateRe_shape t hre
    rw [if_pos hre, ht] at h
    rw [splitDots_shape a b m1 m2 y1 y2 y3 y4 (isDigit_ne_dot a ha) (isDigit_ne_dot b hb)
      (isDigit_ne_dot m1 hm1) (isDigit_ne_dot m2 hm2) (isDigit_ne_dot y1 hy1)
      (isDigit_ne_dot y2 hy2) (isDigit_ne_dot y3 hy3) (isDigit_ne_dot y4 hy4)] at h
    simp only [List.map_cons, List.map_nil] at h
    rw [digitsToNat_two a b ha hb, digitsToNat_two m1 m2 hm1 hm2,
      digitsToNat_four y1 y2 y3 y4 hy1 hy2 hy3 hy4] at h
    simp at h
    unfold specDatePattern
    rw [ht]
    simp [ha, hb, hm1, hm2, hy1, hy2, hy3, hy4]
    omega
  · rw [if_neg hre] at h
    simp at h

/-! ### Engine dispatch lemmas -/

/-- In `SelectingDate`, a menu-label text reaches `handle_date_input`
and takes its first branch: the plain date prompt, same state. -/
lemma run_selectingDate_menu (cf opf : Bool) (s : Sheet) (sess : Session) (text : String)
    (h1 : MENU_TEXTS.contains text = true) (h2 : ¬(text = "« Назад"))
    (h3 : isCommand text = false) :
    run cf opf s ChatState.selectingDate sess text =
      ⟨some datePrompt, ChatState.selectingDate, sess, s⟩ := by
  simp only [run]
  rw [if_neg h2, if_pos h3]
  unfold handle_date_input
  rw [if_pos h1]
  rfl

/-! ### The claims -/

/-- C1 (counterexample): a repository fault while constructing the
per-call Sheets client is raised outside every `try` block, so
`handle_description_input` lets it escape: the conversation neither
replies nor advances to `SelectingAction`, contradicting the claim that
a Repository fault never propagates out of the handler. -/
theorem C1_cex :
    (run true false [] ChatState.addingDescription
        ⟨some "15.03.2025", some "T", none⟩ "Room 4").reply = none ∧
    (run true false [] ChatState.addingDescription
        ⟨some "15.03.2025", some "T", none⟩ "Room 4").next = ChatState.addingDescription ∧
    ¬(ChatState.addingDescription = ChatState.selectingAction) := by
  refine ⟨by decide, by decide, by decide⟩

/-- C1 (amended): when the per-call client is constructed successfully,
both attempted writes — the upsert committed from `AddingDescription`
and the clear committed from `ConfirmDelete` — advance the session to
`SelectingAction` and reply with the success or the generic failure
message, whether or not the store operation faults; operation faults
inside the repository methods are caught and never escape. -/
theorem C1_write_safe (opf : Bool) (s : Sheet) (sess : Session) (text : String)
    (h1 : isCommand text = false) (h2 : ¬(text = "« Назад")) :
    ((run false opf s ChatState.addingDescription sess text).next = ChatState.selectingAction ∧
      ((run false opf s ChatState.addingDescription sess text).reply = some (updOkMsg sess.user_date) ∨
        (run false opf s ChatState.addingDescription sess text).reply = some updFailMsg)) ∧
    ((run false opf s ChatState.confirmDelete sess "✅ Подтвердить").next = ChatState.selectingAction ∧
      ((run false opf s ChatState.confirmDelete sess "✅ Подтвердить").reply = some (delOkMsg sess.user_date) ∨
        (run false opf s ChatState.confirmDelete sess "✅ Подтвердить").reply = some delFailMsg)) := by
  constructor
  · have hrun : run false opf s ChatState.addingDescription sess text =
        ofOutcome ChatState.addingDescription sess s
          (handle_description_input false opf s sess text) := by
      simp only [run]
      rw [if_neg h2, if_pos h1]
    rw [hrun]
    unfold handle_description_input
    rw [if_neg (by decide : ¬(false = true))]
    by_cases hsucc : (update_event_opt opf s sess.user_date sess.user_title text).1 = true
    · rw [if_pos hsucc]
      exact ⟨rfl, Or.inl rfl⟩
    · rw [if_neg hsucc]
      exact ⟨rfl, Or.inr rfl⟩
  · have hrun : run false opf s ChatState.confirmDelete sess "✅ Подтвердить" =
        ofOutcome ChatState.confirmDelete sess s
          (handle_delete_confirm false opf s sess "✅ Подтвердить") := rfl
    rw [hrun]
    unfold handle_delete_confirm
    rw [if_neg (by decide : ¬("✅ Подтвердить" = "❌ Отменить")),
        if_neg (by decide : ¬(false = true))]
    by_cases hsucc : (delete_event_opt opf s sess.user_date).1 = true
    · rw [if_pos hsucc]
      exact ⟨rfl, Or.inl rfl⟩
    · rw [if_neg hsucc]
      exact ⟨rfl, Or.inr rfl⟩

/-- C1 (witness): the amended theorem at a concrete faulting store. -/
theorem C1_write_safe_witness :
    ((run false true [] ChatState.addingDescription
        ⟨some "15.03.2025", some "T", none⟩ "Room 4").next = ChatState.selectingAction ∧
      ((run false true [] ChatState.addingDescription
          ⟨some "15.03.2025", some "T", none⟩ "Room 4").reply = some (updOkMsg (some "15.03.2025")) ∨
        (run false true [] ChatState.addingDescription
          ⟨some "15.03.2025", some "T", none⟩ "Room 4").reply = some updFailMsg)) ∧
    ((run false true [] ChatState.confirmDelete
        ⟨some "15.03.2025", some "T", none⟩ "✅ Подтвердить").next = ChatState.selectingAction ∧
      ((run false true [] ChatState.confirmDelete
          ⟨some "15.03.2025", some "T", none⟩ "✅ Подтвердить").reply = some (delOkMsg (some "15.03.2025")) ∨
        (run false true [] ChatState.confirmDelete
          ⟨some "15.03.2025", some "T", none⟩ "✅ Подтвердить").reply = some delFailMsg)) :=
  C1_write_safe true [] ⟨some "15.03.2025", some "T", none⟩ "Room 4" (by decide) (by decide)

/-- C2 (counterexample): `" 15.03.2025"` does not match the spec's
`DD.MM.YYYY` pattern (and `is_valid_date` rejects it as given), yet the
handler strips it first and accepts: the session moves to
`SelectingAction` and `selected_date` is set. -/
theorem C2_cex :
    specDatePattern " 15.03.2025" = false ∧
    is_valid_date " 15.03.2025" = false ∧
    (handle_date_input [] ⟨none, none, none⟩ " 15.03.2025").next = ChatState.selectingAction ∧
    (handle_date_input [] ⟨none, none, none⟩ " 15.03.2025").sess.user_date = some "15.03.2025" := by
  refine ⟨by decide, by decide, by decide, by decide⟩

/-- C2 (amended): for every ASCII input whose *stripped* form (Python
stripping) fails the `DD.MM.YYYY` day/month/year pattern,
`is_valid_date` returns false on the stripped form and
`handle_date_input` rejects: same state `SelectingDate`, session and
sheet untouched.  The claim is stated for ASCII inputs, where the
model's digit and whitespace classes coincide with Python's; non-ASCII
inputs are outside it because Python's `\d` and `int` also accept other
Unicode decimal digits. -/
theorem C2_reject (s : Sheet) (sess : Session) (text : String)
    (hascii : ∀ c ∈ text.data, c.toNat < 128)
    (h : specDatePattern (strip text) = false) :
    is_valid_date (strip text) = false ∧
    (handle_date_input s sess text).next = ChatState.selectingDate ∧
    (handle_date_input s sess text).sess = sess ∧
    (handle_date_input s sess text).sheet = s := by
  have hv : is_valid_date (strip text) = false := by
    cases hvd : is_valid_date (strip text) with
    | false => rfl
    | true =>
      rw [valid_imp_spec _ hvd] at h
      exact absurd h (by decide)
  refine ⟨hv, ?_, ?_, ?_⟩ <;>
  · unfold handle_date_input
    by_cases hm : MENU_TEXTS.contains text = true
    · rw [if_pos hm]
    · rw [if_neg hm, if_pos hv]

/-- C2 (witness): the amended theorem at a concrete rejected input. -/
theorem C2_reject_witness :
    is_valid_date (strip "hello") = false ∧
    (handle_date_input [] ⟨none, none, none⟩ "hello").next = ChatState.selectingDate ∧
    (handle_date_input [] ⟨none, none, none⟩ "hello").sess = ⟨none, none, none⟩ ∧
    (handle_date_input [] ⟨none, none, none⟩ "hello").sheet = [] :=
  C2_reject [] ⟨none, none, none⟩ "hello" (by decide) (by decide)

/-- C3: in `SelectingDate`, every text equal to one of the
action/confirmation labels of `MENU_TEXTS` re-prompts with the plain
date prompt (not the invalid-format error), stays in `SelectingDate`
and leaves the session untouched — even though each label fails date
validation, showing the label check precedes validation. -/
theorem C3_menu_label (cf opf : Bool) (s : Sheet) (sess : Session) (text : String)
    (hmem : text ∈ MENU_TEXTS) :
    run cf opf s ChatState.selectingDate sess text =
      ⟨some datePrompt, ChatState.selectingDate, sess, s⟩ ∧
    is_valid_date (strip text) = false ∧
    ¬(datePrompt = invalidDateMsg) := by
  fin_cases hmem <;>
    exact ⟨run_selectingDate_menu _ _ _ _ _ (by decide) (by decide) (by decide),
      by decide, by decide⟩

/-- C3 (witness): the view label sent while selecting a date. -/
theorem C3_menu_label_witness :
    run false false [] ChatState.selectingDate ⟨none, none, none⟩ "👀 Посмотреть" =
      ⟨some datePrompt, ChatState.selectingDate, ⟨none, none, none⟩, []⟩ ∧
    is_valid_date (strip "👀 Посмотреть") = false ∧
    ¬(datePrompt = invalidDateMsg) :=
  C3_menu_label false false [] ⟨none, none, none⟩ "👀 Посмотреть" (by decide)

/-- C4 (counterexample): the round-trip fails without further
hypotheses.  First, `find` scans every column, so a date string sitting
in another row's title cell hijacks the upsert (the write lands in that
row and even erases the matching cell), and the following lookup reports
no record.  Second, upserting empty title and description reads back as
`exists = false` with `none` fields. -/
theorem C4_cex :
    get_event_by_date false
        (update_event false [["01.01.2024", "15.03.2025", "x"]]
          "15.03.2025" "Team Sync" "Room 4, 10am").2 "15.03.2025" =
      some ⟨"15.03.2025", none, none, false⟩ ∧
    get_event_by_date false (update_event false [] "01.01.2024" "" "").2 "01.01.2024" =
      some ⟨"01.01.2024", none, none, false⟩ := by
  refine ⟨by decide, by decide⟩

/-- C4 (amended): for a non-empty date key occurring only in the key
column, and non-empty title and description, `upsert` followed by
`lookup` returns `exists = true` with exactly the written title and
description. -/
theorem C4_roundtrip (s : Sheet) (d t ds : String) (hd : d ≠ "") (ht : t ≠ "")
    (hds : ds ≠ "") (hkey : ∀ r c, cellStr s r c = d → c = 1) :
    get_event_by_date false (update_event false s d t ds).2 d =
      some ⟨d, some t, some ds, true⟩ := by
  cases hf : findCell s d with
  | some rc =>
    obtain ⟨r, c⟩ := rc
    obtain ⟨hr1, hc1, hcell, hmin⟩ := findCell_some s d r c hd hf
    have hc : c = 1 := hkey r c hcell
    subst hc
    have hupd : update_event false s d t ds =
        (true, updateCell (updateCell s r 2 t) r 3 ds) := by
      simp [update_event, hf]
    have h2 : (update_event false s d t ds).2 = updateCell (updateCell s r 2 t) r 3 ds := by
      rw [hupd]
    rw [h2]
    have hframe : ∀ x y, cellStr (updateCell (updateCell s r 2 t) r 3 ds) x y =
        if x = r ∧ y = 3 then ds else if x = r ∧ y = 2 then t else cellStr s x y := by
      intro x y
      rw [cellStr_updateCell _ r 3 ds hr1 (by omega) x y,
        cellStr_updateCell s r 2 t hr1 (by omega) x y]
    have hfind2 : findCell (updateCell (updateCell s r 2 t) r 3 ds) d = some (r, 1) := by
      apply findCell_of_cell _ d r 1 hd
      · rw [hframe, if_neg (by omega : ¬(r = r ∧ (1 : Nat) = 3)),
          if_neg (by omega : ¬(r = r ∧ (1 : Nat) = 2))]
        exact hcell
      · intro r' c' hlt
        rw [hframe]
        split_ifs with hx1 hx2
        · exact (show False by omega).elim
        · exact (show False by omega).elim
        · exact hmin r' c' hlt
    have hv2 : cellValue (updateCell (updateCell s r 2 t) r 3 ds) r 2 = some t := by
      unfold cellValue
      rw [hframe, if_neg (show ¬(r = r ∧ (2 : Nat) = 3) from by omega),
        if_pos (show r = r ∧ (2 : Nat) = 2 from ⟨rfl, rfl⟩), if_neg ht]
    have hv3 : cellValue (updateCell (updateCell s r 2 t) r 3 ds) r 3 = some ds := by
      unfold cellValue
      rw [hframe, if_pos (show r = r ∧ (3 : Nat) = 3 from ⟨rfl, rfl⟩), if_neg hds]
    simp [get_event_by_date, hfind2, hv2, hv3]
  | none =>
    have hnone := findCell_none s d hd hf
    have hupd : update_event false s d t ds =
        (true, updateCell (updateCell (updateCell s (colValuesLen s 1 + 1) 1 d)
          (colValuesLen s 1 + 1) 2 t) (colValuesLen s 1 + 1) 3 ds) := by
      simp [update_event, hf]
    have h2 : (update_event false s d t ds).2 =
        updateCell (updateCell (updateCell s (colValuesLen s 1 + 1) 1 d)
          (colValuesLen s 1 + 1) 2 t) (colValuesLen s 1 + 1) 3 ds := by
      rw [hupd]
    rw [h2]
    have hR : 1 ≤ colValuesLen s 1 + 1 := by omega
    have hframe : ∀ x y,
        cellStr (updateCell (updateCell (updateCell s (colValuesLen s 1 + 1) 1 d)
          (colValuesLen s 1 + 1) 2 t) (colValuesLen s 1 + 1) 3 ds) x y =
        if x = colValuesLen s 1 + 1 ∧ y = 3 then ds
        else if x = colValuesLen s 1 + 1 ∧ y = 2 then t
        else if x = colValuesLen s 1 + 1 ∧ y = 1 then d
        else cellStr s x y := by
      intro x y
      rw [cellStr_updateCell _ (colValuesLen s 1 + 1) 3 ds hR (by omega) x y,
        cellStr_updateCell _ (colValuesLen s 1 + 1) 2 t hR (by omega) x y,
        cellStr_updateCell s (colValuesLen s 1 + 1) 1 d hR (by omega) x y]
    have hfind2 : findCell (updateCell (updateCell (updateCell s (colValuesLen s 1 + 1) 1 d)
        (colValuesLen s 1 + 1) 2 t) (colValuesLen s 1 + 1) 3 ds) d =
        some (colValuesLen s 1 + 1, 1) := by
      apply findCell_of_cell _ d (colValuesLen s 1 + 1) 1 hd
      · rw [hframe,
          if_neg (show ¬(colValuesLen s 1 + 1 = colValuesLen s 1 + 1 ∧ (1 : Nat) = 3)
            from by omega),
          if_neg (show ¬(colValuesLen s 1 + 1 = colValuesLen s 1 + 1 ∧ (1 : Nat) = 2)
            from by omega),
          if_pos (show colValuesLen s 1 + 1 = colValuesLen s 1 + 1 ∧ (1 : Nat) = 1
            from ⟨rfl, rfl⟩)]
      · intro r' c' hlt
        rw [hframe]
        split_ifs with hx1 hx2 hx3
        · exact (show False by omega).elim
        · exact (show False by omega).elim
        · exact (show False by omega).elim
        · exact hnone r' c'
    have hv2 : cellValue (updateCell (updateCell (updateCell s (colValuesLen s 1 + 1) 1 d)
        (colValuesLen s 1 + 1) 2 t) (colValuesLen s 1 + 1) 3 ds) (colValuesLen s 1 + 1) 2 =
        some t := by
      unfold cellValue
      rw [hframe,
        if_neg (show ¬(colValuesLen s 1 + 1 = colValuesLen s 1 + 1 ∧ (2 : Nat) = 3)
          from by omega),
        if_pos (show colValuesLen s 1 + 1 = colValuesLen s 1 + 1 ∧ (2 : Nat) = 2
          from ⟨rfl, rfl⟩), if_neg ht]
    have hv3 : cellValue (updateCell (updateCell (updateCell s (colValuesLen s 1 + 1) 1 d)
        (colValuesLen s 1 + 1) 2 t) (colValuesLen s 1 + 1) 3 ds) (colValuesLen s 1 + 1) 3 =
        some ds := by
      unfold cellValue
      rw [hframe,
        if_pos (show colValuesLen s 1 + 1 = colValuesLen s 1 + 1 ∧ (3 : Nat) = 3
          from ⟨rfl, rfl⟩), if_neg hds]
    simp [get_event_by_date, hfind2, hv2, hv3]

/-- C4 (witness): round-trip on an initially empty sheet. -/
theorem C4_roundtrip_witness :
    get_event_by_date false
        (update_event false [] "15.03.2025" "Team Sync" "Room 4, 10am").2 "15.03.2025" =
      some ⟨"15.03.2025", some "Team Sync", some "Room 4, 10am", true⟩ :=
  C4_roundtrip [] "15.03.2025" "Team Sync" "Room 4, 10am" (by decide) (by decide) (by decide)
    (fun r c h => absurd (cellStr_nil r c ▸ h) (by decide))

/-- C5 (counterexample): `clear` on a date with no row returns exactly
the same value as a faulted `clear` — plain `False` — so the "nothing to
delete" outcome is not distinguishable from a store fault. -/
theorem C5_cex :
    delete_event false [] "15.03.2025" = delete_event true [] "15.03.2025" ∧
    (delete_event false [] "15.03.2025").1 = false := by
  refine ⟨by decide, by decide⟩

/-- C5 (amended): `clear` on a date with no row does not raise — it
returns `False`, the same indicator a fault produces, leaving the sheet
unchanged — and repeated `clear` calls converge: after `clearBound`
iterations every further lookup reports `exists = false`. -/
theorem C5_clear (s : Sheet) (d : String) (hd : d ≠ "") :
    (findCell s d = none → delete_event false s d = (false, s)) ∧
    (∀ m, clearBound d s ≤ m →
      get_event_by_date false (clearIter d m s) d = some ⟨d, none, none, false⟩) := by
  refine ⟨fun hf => delete_of_none s d hf, fun m hm => ?_⟩
  refine clear_conv d hd (clearMeasure d s) s le_rfl m ?_
  unfold clearBound at hm
  omega

/-- C5 (witness): two clears of an existing record converge. -/
theorem C5_clear_witness :
    get_event_by_date false (clearIter "15.03.2025" 2 [["15.03.2025", "T", "D"]]) "15.03.2025" =
      some ⟨"15.03.2025", none, none, false⟩ :=
  (C5_clear [["15.03.2025", "T", "D"]] "15.03.2025" (by decide)).2 2 (by decide)

/-- C6 (counterexample): in `ConfirmOverwrite` only the two
confirmation labels (and the back label) are registered, so an arbitrary
non-cancel text such as `"hello"` is not dispatched: the state stays
`ConfirmOverwrite` with no reply, instead of moving to `AddingTitle` as
the claim asserts for "any other non-cancel text". -/
theorem C6_cex :
    (run false false [] ChatState.confirmOverwrite
        ⟨some "15.03.2025", none, none⟩ "hello").next = ChatState.confirmOverwrite ∧
    ¬(ChatState.confirmOverwrite = ChatState.addingTitle) ∧
    (run false false [] ChatState.confirmOverwrite
        ⟨some "15.03.2025", none, none⟩ "hello").reply = none := by
  refine ⟨by decide, by decide, by decide⟩

/-- C6 (amended): in `ConfirmOverwrite`, the cancel label returns to
`SelectingAction` with no write to the sheet, and the confirm label
proceeds to `AddingTitle`; other texts are either the back label or are
not dispatched at all. -/
theorem C6_overwrite_confirm (cf opf : Bool) (s : Sheet) (sess : Session) :
    run cf opf s ChatState.confirmOverwrite sess "❌ Отменить" =
      ⟨some actionCancelledMsg, ChatState.selectingAction, sess, s⟩ ∧
    run cf opf s ChatState.confirmOverwrite sess "✅ Подтвердить" =
      ⟨some overwriteTitlePrompt, ChatState.addingTitle, sess, s⟩ := by
  exact ⟨rfl, rfl⟩

/-- C7 (counterexample): "the row of a date key" is located by
`sheet.find`, which scans every column, so when the date string also
sits in an earlier row's title cell the confirmed delete blanks that
wrong row.  Here `"15.03.2025"` is the key of row 2, yet the delete
blanks row 1's title/description, reports success, and the subsequent
lookup finds a different row whose record is fully intact — the claimed
blank-and-reuse behaviour fails as stated. -/
theorem C7_cex :
    cellStr [["01.01.2024", "15.03.2025", "x"], ["15.03.2025", "T", "D"]] 2 1 =
      "15.03.2025" ∧
    delete_event false [["01.01.2024", "15.03.2025", "x"], ["15.03.2025", "T", "D"]]
        "15.03.2025" =
      (true, [["01.01.2024", "", ""], ["15.03.2025", "T", "D"]]) ∧
    get_event_by_date false
        (delete_event false [["01.01.2024", "15.03.2025", "x"], ["15.03.2025", "T", "D"]]
          "15.03.2025").2 "15.03.2025" =
      some ⟨"15.03.2025", some "T", some "D", true⟩ := by
  refine ⟨by decide, by decide, by decide⟩

/-- C7 (amended): provided the first cell `find` locates for the key is
the key cell (column 1) of its row — in particular whenever the date
occurs only in the key column — a confirmed delete keeps the key cell
and row position: it blanks exactly columns 2 and 3 of that row, every
other cell is unchanged, the same row is found again by the next lookup,
an upsert for the same date rewrites that same row, and a new key is
appended at one past the last occupied row of the key column. -/
theorem C7_soft_delete (s : Sheet) (d : String) (r : Nat) (hd : d ≠ "")
    (hf : findCell s d = some (r, 1)) :
    (delete_event false s d).1 = true ∧
    cellStr (delete_event false s d).2 r 1 = d ∧
    cellStr (delete_event false s d).2 r 2 = "" ∧
    cellStr (delete_event false s d).2 r 3 = "" ∧
    (∀ r' c', ¬(r' = r ∧ (c' = 2 ∨ c' = 3)) →
      cellStr (delete_event false s d).2 r' c' = cellStr s r' c') ∧
    findCell (delete_event false s d).2 d = some (r, 1) ∧
    (∀ t ds, update_event false (delete_event false s d).2 d t ds =
      (true, updateCell (updateCell (delete_event false s d).2 r 2 t) r 3 ds)) ∧
    (∀ (s₂ : Sheet) (t ds : String), findCell s₂ d = none →
      update_event false s₂ d t ds =
        (true, updateCell (updateCell (updateCell s₂ (colValuesLen s₂ 1 + 1) 1 d)
          (colValuesLen s₂ 1 + 1) 2 t) (colValuesLen s₂ 1 + 1) 3 ds)) ∧
    (∀ (s₂ : Sheet) (rr : Nat), colValuesLen s₂ 1 < rr → cellStr s₂ rr 1 = "") ∧
    (∀ (s₂ : Sheet), colValuesLen s₂ 1 ≠ 0 → cellStr s₂ (colValuesLen s₂ 1) 1 ≠ "") := by
  obtain ⟨hr1, _, hcell, hmin⟩ := findCell_some s d r 1 hd hf
  have hcs := fun x y => clear_cellStr s d r 1 hd hf x y
  have hfind2 : findCell (delete_event false s d).2 d = some (r, 1) := by
    apply findCell_of_cell _ d r 1 hd
    · rw [hcs, if_neg (by omega : ¬(r = r ∧ ((1 : Nat) = 2 ∨ (1 : Nat) = 3)))]
      exact hcell
    · intro r' c' hlt
      rw [hcs]
      split_ifs with hxy
      · exact fun he => hd he.symm
      · exact hmin r' c' hlt
  refine ⟨?_, ?_, ?_, ?_, ?_, hfind2, ?_, ?_, ?_, ?_⟩
  · rw [delete_of_some s d r 1 hf]
  · rw [hcs, if_neg (by omega : ¬(r = r ∧ ((1 : Nat) = 2 ∨ (1 : Nat) = 3)))]
    exact hcell
  · rw [hcs, if_pos (show r = r ∧ ((2 : Nat) = 2 ∨ (2 : Nat) = 3) from ⟨rfl, Or.inl rfl⟩)]
  · rw [hcs, if_pos (show r = r ∧ ((3 : Nat) = 2 ∨ (3 : Nat) = 3) from ⟨rfl, Or.inr rfl⟩)]
  · intro r' c' hne
    rw [hcs, if_neg hne]
  · intro t ds
    simp [update_event, hfind2]
  · intro s₂ t ds hf2
    simp [update_event, hf2]
  · intro s₂ rr hrr
    exact colValuesLen_spec s₂ 1 (by omega) rr hrr
  · intro s₂ h0
    exact colValuesLen_last s₂ 1 (by omega) h0

/-- C7 (witness): deleting the only record of a one-row sheet. -/
theorem C7_soft_delete_witness :
    (delete_event false [["15.03.2025", "T", "D"]] "15.03.2025").1 = true ∧
    cellStr (delete_event false [["15.03.2025", "T", "D"]] "15.03.2025").2 1 1 = "15.03.2025" ∧
    cellStr (delete_event false [["15.03.2025", "T", "D"]] "15.03.2025").2 1 2 = "" ∧
    findCell (delete_event false [["15.03.2025", "T", "D"]] "15.03.2025").2 "15.03.2025" =
      some (1, 1) := by
  have h := C7_soft_delete [["15.03.2025", "T", "D"]] "15.03.2025" 1 (by decide) (by decide)
  exact ⟨h.1, h.2.1, h.2.2.1, h.2.2.2.2.2.1⟩

/-- C8: `lookup` never raises for a date with no row — it returns the
NotFound record with `exists = false` and `none` fields — and a store
fault returns the distinct indicator `none` (Python `None`), never
confused with the NotFound record. -/
theorem C8_lookup_total (s : Sheet) (d : String) :
    get_event_by_date true s d = none ∧
    (findCell s d = none → get_event_by_date false s d = some ⟨d, none, none, false⟩) ∧
    (∀ e : EventData, ¬((none : Option EventData) = some e)) := by
  refine ⟨by simp [get_event_by_date], fun hf => by simp [get_event_by_date, hf],
    fun e => by simp⟩

/-- C8 (witness): lookup of a never-written date on an empty sheet. -/
theorem C8_lookup_total_witness :
    get_event_by_date true [] "15.03.2025" = none ∧
    get_event_by_date false [] "15.03.2025" = some ⟨"15.03.2025", none, none, false⟩ :=
  ⟨(C8_lookup_total [] "15.03.2025").1, (C8_lookup_total [] "15.03.2025").2.1 (by decide)⟩

/-- C9 (counterexample): the explicit `/cancel` command ends the
conversation but does not clear the session: both `selected_date` and
`pending_title` survive, contradicting the claim that cancellation
discards the whole session. -/
theorem C9_cex :
    (run false false [] ChatState.selectingAction
        ⟨some "15.03.2025", some "Team Sync", none⟩ "/cancel").next = ChatState.ended ∧
    (run false false [] ChatState.selectingAction
        ⟨some "15.03.2025", some "Team Sync", none⟩ "/cancel").sess.user_date =
      some "15.03.2025" ∧
    (run false false [] ChatState.selectingAction
        ⟨some "15.03.2025", some "Team Sync", none⟩ "/cancel").sess.user_title =
      some "Team Sync" := by
  refine ⟨by decide, by decide, by decide⟩

/-- C9 (amended): returning to date entry discards the whole session —
state `SelectingDate`, every field cleared — while the explicit cancel
command only ends the conversation and leaves the session fields in
place. -/
theorem C9_reset (s : Sheet) (sess : Session) :
    back_to_date s sess = ⟨datePrompt, ChatState.selectingDate, ⟨none, none, none⟩, s⟩ ∧
    cancel s sess = ⟨actionCancelledMsg, ChatState.ended, sess, s⟩ :=
  ⟨rfl, rfl⟩

/-- C10: in `SelectingAction`, `ConfirmOverwrite` and `ConfirmDelete`,
a non-command text matching none of the registered button labels is not
dispatched to any handler: no reply is produced and state, session and
sheet are unchanged. -/
theorem C10_unmatched (cf opf : Bool) (s : Sheet) (sess : Session) (st : ChatState)
    (text : String)
    (hst : st = ChatState.selectingAction ∨ st = ChatState.confirmOverwrite ∨
      st = ChatState.confirmDelete)
    (hcmd : isCommand text = false) (hmem : ¬(text ∈ stateLabels st)) :
    run cf opf s st sess text = ⟨none, st, sess, s⟩ := by
  have hcancel : ¬(text = "/cancel") := by
    intro he
    rw [he] at hcmd
    exact absurd hcmd (by decide)
  rcases hst with rfl | rfl | rfl
  · simp only [stateLabels, List.mem_cons, not_or] at hmem
    obtain ⟨h1, h2, h3, h4, -⟩ := hmem
    simp only [run]
    rw [if_neg h1, if_neg h2, if_neg h3, if_neg h4, if_neg hcancel]
  · simp only [stateLabels, List.mem_cons, not_or] at hmem
    obtain ⟨h1, h2, h3, -⟩ := hmem
    simp only [run]
    rw [if_neg (not_or.mpr ⟨h1, h2⟩), if_neg h3, if_neg hcancel]
  · simp only [stateLabels, List.mem_cons, not_or] at hmem
    obtain ⟨h1, h2, h3, -⟩ := hmem
    simp only [run]
    rw [if_neg (not_or.mpr ⟨h1, h2⟩), if_neg h3, if_neg hcancel]

/-- C10 (witness): an arbitrary greeting in the action menu state. -/
theorem C10_unmatched_witness :
    run false false [] ChatState.selectingAction ⟨none, none, none⟩ "привет" =
      ⟨none, ChatState.selectingAction, ⟨none, none, none⟩, []⟩ :=
  C10_unmatched false false [] ⟨none, none, none⟩ ChatState.selectingAction "привет"
    (Or.inl rfl) (by decide) (by decide)

end Bot
